import Mathlib

/-!
Verification of the multi-worker task scheduler core: the dedup cache and its
use by the ingestion and filter steps, the pipeline runner, the cron scheduler
surface, and pipeline validation.  Go source functions are embedded shallowly:
database reads appear as oracle functions returning `Except`, executor
invocations as step oracles, and machine state as explicit values.
-/

/-- A scraped job or content item (model.ScrapedItem). -/
structure ScrapedItem where
  id : String
  title : String
  description : String
  url : String
  source : String
  category : String
  tags : List String
  salary : String
  company : String
  location : String
  postedAt : String
  deriving DecidableEq, Repr

/-- A feed item (model.RSSItem). -/
structure RSSItem where
  id : String
  title : String
  description : String
  link : String
  source : String
  pubDate : String
  categories : List String
  author : String
  deriving DecidableEq, Repr

/-- A database read oracle for the content cache: given a content hash and a
task id, either the `COUNT(*)` of matching rows or a query error. -/
def CacheDB : Type := String → String → Except Unit Nat

/-- CacheRepository.ExistsForTask: returns the Go pair `(exists, err)`;
on a query error the Go function returns `(false, wrappedErr)`, modelled as
`(false, true)` where the second component is the err-is-non-nil flag. -/
def ExistsForTask (db : CacheDB) (contentHash taskID : String) : Bool × Bool :=
  match db contentHash taskID with
  | .error _ => (false, true)
  | .ok count => (decide (0 < count), false)

namespace scraper

/-- scraper.Executor.filterNewItems: drops items whose fingerprint is already
cached for the task; returns the surviving items and the hashes passed to
`AddBatch`.  The hash function (CacheRepository.HashContent, SHA-256 hex) is
abstracted as `hash`; the cache read as `db`. -/
def filterNewItems (hash : String → String) (db : CacheDB) (taskID : String) :
    List ScrapedItem → List ScrapedItem × List String
  | [] => ([], [])
  | item :: rest =>
    let content := if item.url = "" then item.id ++ item.source else item.url
    let h := hash content
    let res := ExistsForTask db h taskID
    -- Go: `if err != nil || exists { continue }`
    if res.2 || res.1 then
      filterNewItems hash db taskID rest
    else
      let tail := filterNewItems hash db taskID rest
      (item :: tail.1, h :: tail.2)

end scraper

namespace rss

/-- rss.Executor.filterNewItems: the feed-ingestion dedup pass.  The fallback
content when the link is empty is the item id alone. -/
def filterNewItems (hash : String → String) (db : CacheDB) (taskID : String) :
    List RSSItem → List RSSItem × List String
  | [] => ([], [])
  | item :: rest =>
    let content := if item.link = "" then item.id else item.link
    let h := hash content
    let res := ExistsForTask db h taskID
    -- Go: `if err != nil || exists { continue }`
    if res.2 || res.1 then
      filterNewItems hash db taskID rest
    else
      let tail := filterNewItems hash db taskID rest
      (item :: tail.1, h :: tail.2)

end rss

namespace filter

/-- filter.Executor.dedupeScrapedItems: the filter step's second dedup pass
over scraped items.  Go discards the error from ExistsForTask
(`exists, _ := ...`), so a read error leaves `exists = false`. -/
def dedupeScrapedItems (hash : String → String) (db : CacheDB) (taskID : String) :
    List ScrapedItem → List ScrapedItem × List String
  | [] => ([], [])
  | item :: rest =>
    let content := if item.url = "" then item.id ++ item.source else item.url
    let h := hash content
    let res := ExistsForTask db h taskID
    if res.1 then
      dedupeScrapedItems hash db taskID rest
    else
      let tail := dedupeScrapedItems hash db taskID rest
      (item :: tail.1, h :: tail.2)

/-- filter.Executor.dedupeRSSItems: the filter step's second dedup pass over
feed items; like the rss ingestion pass, the empty-link fallback is the id
alone, and the read error is discarded. -/
def dedupeRSSItems (hash : String → String) (db : CacheDB) (taskID : String) :
    List RSSItem → List RSSItem × List String
  | [] => ([], [])
  | item :: rest =>
    let content := if item.link = "" then item.id else item.link
    let h := hash content
    let res := ExistsForTask db h taskID
    if res.1 then
      dedupeRSSItems hash db taskID rest
    else
      let tail := dedupeRSSItems hash db taskID rest
      (item :: tail.1, h :: tail.2)

end filter

/-- A cache oracle that always misses: every count query returns 0 rows. -/
def dbMiss : CacheDB := fun _ _ => .ok 0

/-- A cache oracle whose every read fails. -/
def dbErr : CacheDB := fun _ _ => .error ()

/-- A feed item with an empty link: the dedup fallback case. -/
def rssItemNoLink : RSSItem :=
  { id := "x", title := "t", description := "d", link := "", source := "s",
    pubDate := "", categories := [], author := "" }

/-- A scraped item with a URL, used as a concrete dedup input. -/
def scrapedA : ScrapedItem :=
  { id := "a1", title := "t", description := "d", url := "http://a",
    source := "src", category := "", tags := [], salary := "", company := "",
    location := "", postedAt := "" }

/-- C1 counterexample: for a feed item with an empty link, id `"x"` and source
`"s"`, the feed-ingestion dedup pass hashes the content `"x"` (the id alone),
not `"xs"` (`id + source`) as the claim states; witnessed with the identity
hash function on a fresh cache. -/
theorem c1_counterexample :
    (rss.filterNewItems (fun s => s) dbMiss "t1" [rssItemNoLink]).2 = ["x"] ∧
      (["x"] : List String) ≠ ["xs"] := by
  constructor
  · rfl
  · decide

/-- C1 (amended): the two scraped-item dedup passes hash `URL` when non-empty,
else `id ++ source`, and agree; the two feed-item dedup passes hash `link`
when non-empty, else the `id` alone (the source is not appended), and agree.
The hashed content is observed through the hash batch emitted on a
fresh-cache run over a single item. -/
theorem c1_dedup_content_policy (hash : String → String) (taskID : String)
    (si : ScrapedItem) (ri : RSSItem) :
    (scraper.filterNewItems hash dbMiss taskID [si]).2 =
        [hash (if si.url = "" then si.id ++ si.source else si.url)] ∧
      (filter.dedupeScrapedItems hash dbMiss taskID [si]).2 =
        [hash (if si.url = "" then si.id ++ si.source else si.url)] ∧
      (rss.filterNewItems hash dbMiss taskID [ri]).2 =
        [hash (if ri.link = "" then ri.id else ri.link)] ∧
      (filter.dedupeRSSItems hash dbMiss taskID [ri]).2 =
        [hash (if ri.link = "" then ri.id else ri.link)] := by
  refine ⟨?_, ?_, ?_, ?_⟩ <;>
    simp [scraper.filterNewItems, filter.dedupeScrapedItems,
      rss.filterNewItems, filter.dedupeRSSItems, ExistsForTask, dbMiss]

/-- C2 counterexample: when the cache read errors, the scraper ingestion pass
drops the item (`if err != nil || exists { continue }`) instead of keeping it
as the claim states. -/
theorem c2_counterexample :
    (scraper.filterNewItems (fun s => s) dbErr "t1" [scrapedA]).1 = [] ∧
      ([] : List ScrapedItem) ≠ [scrapedA] := by
  constructor
  · rfl
  · decide

/-- C2 (amended): on a cache read error the filter step's second pass keeps
the item (the error is discarded, leaving `exists = false`), but the scraper
and feed ingestion passes drop it (error is treated like a cache hit). -/
theorem c2_cache_error_handling (hash : String → String) (taskID : String)
    (si : ScrapedItem) (ri : RSSItem) :
    (scraper.filterNewItems hash dbErr taskID [si]).1 = [] ∧
      (rss.filterNewItems hash dbErr taskID [ri]).1 = [] ∧
      (filter.dedupeScrapedItems hash dbErr taskID [si]).1 = [si] ∧
      (filter.dedupeRSSItems hash dbErr taskID [ri]).1 = [ri] := by
  refine ⟨?_, ?_, ?_, ?_⟩ <;>
    simp [scraper.filterNewItems, filter.dedupeScrapedItems,
      rss.filterNewItems, filter.dedupeRSSItems, ExistsForTask, dbErr]

/-- A metadata value (a restriction of Go's `interface{}` to the shapes the
executors store). -/
inductive MetaVal where
  | str (s : String)
  | nat (n : Nat)
  | strList (xs : List String)
  deriving DecidableEq, Repr

/-- Executor metadata: Go's `map[string]interface{}`, as an association list. -/
abbrev Metadata := List (String × MetaVal)

/-- A pipeline-step config value (`interface{}` in the config bag). -/
inductive ConfigVal where
  | str (s : String)
  | num (x : Int)
  | boolean (b : Bool)
  | list (xs : List ConfigVal)

/-- A step config: Go's `map[string]interface{}` key/value bag. -/
abbrev Config := List (String × ConfigVal)

/-- Presence/typed lookup of a config key. -/
def Config.get (c : Config) (k : String) : Option ConfigVal :=
  List.lookup k c

/-- The polymorphic `Data` field of an executor result: nil, a scraped-item
sequence, a feed-item sequence, a string, or any other value. -/
inductive Data where
  | null
  | scraped (items : List ScrapedItem)
  | feed (items : List RSSItem)
  | text (s : String)
  | other
  deriving DecidableEq, Repr

/-- model.ExecutorResult. -/
structure ExecutorResult where
  data : Data
  metadata : Metadata
  itemCount : Nat
  deriving DecidableEq, Repr

/-- filter.SkipEmpty: true when the result pointer is nil, its data is nil, an
empty item sequence, or the empty string; false for any other data. -/
def SkipEmpty : Option ExecutorResult → Bool
  | none => true
  | some r =>
    match r.data with
    | .null => true
    | .scraped v => v.isEmpty
    | .feed v => v.isEmpty
    | .text v => v = ""
    | .other => false

/-- model.PipelineStep (config keys only; the runner injects task_id before
dispatch, which the step oracle may observe through the step value). -/
structure PipelineStep where
  type : String
  name : String
  config : Config

/-- The `Output` field of a step result: nil, a plain string, or the
`{item_count, metadata}` summary map the runner builds. -/
inductive Output where
  | null
  | text (s : String)
  | summary (itemCount : Nat) (metadata : Metadata)
  deriving DecidableEq, Repr

/-- model.StepResult (timestamps omitted: wall-clock times are outside the
embedding). -/
structure StepResult where
  stepName : String
  stepType : String
  status : String
  output : Output
  error : Option String
  deriving DecidableEq, Repr

/-- The outcome of one `executeStep` dispatch: a skip signal
(filter.SkipPipelineError), a plain error, or a result pointer. -/
inductive StepOut where
  | skipSignal (reason : String)
  | failure (msg : String)
  | success (r : Option ExecutorResult)

/-- An oracle standing for `executeStep`: given the step index, the step and
the previous result pointer, the dispatched executor's outcome. -/
def StepOracle : Type := Nat → PipelineStep → Option ExecutorResult → StepOut

/-- The step display name: `Step <i+1>: <type>` when no name is configured. -/
def stepDisplayName (i : Nat) (step : PipelineStep) : String :=
  if step.name = "" then "Step " ++ toString (i + 1) ++ ": " ++ step.type
  else step.name

/-- The `{item_count, metadata}` output summary.  The nil case is unreachable
in the runner: it is only evaluated when `SkipEmpty` is false, which forces a
non-nil result pointer. -/
def summaryOf : Option ExecutorResult → Output
  | some r => .summary r.itemCount r.metadata
  | none => .null

/-- The outcome of `executePipeline`: the final step_results slice, the
wrapped error (nil on success), and the successive `UpdateStepResults`
journal writes it performed. -/
structure PipeOut where
  results : List StepResult
  err : Option String
  writes : List (List StepResult)
  deriving DecidableEq, Repr

/-- PipelineRunner.executePipeline: sequential step loop with the skip,
empty-result and error early exits.  `acc` is the step_results slice built so
far and `i` the 0-based index of the next step. -/
def runSteps (oracle : StepOracle) (acc : List StepResult) (i : Nat)
    (cur : Option ExecutorResult) : List PipelineStep → PipeOut
  | [] => ⟨acc, none, []⟩
  | step :: rest =>
    let name := stepDisplayName i step
    match oracle i step cur with
    | .skipSignal reason =>
      ⟨acc ++ [⟨name, step.type, "skipped", .null,
        some ("pipeline skipped: " ++ reason)⟩], none, []⟩
    | .failure msg =>
      let acc2 := acc ++ [⟨name, step.type, "failed", .null, some msg⟩]
      ⟨acc2,
        some ("step " ++ toString (i + 1) ++ " (" ++ step.type ++ ") failed: "
          ++ msg),
        [acc2]⟩
    | .success r =>
      if SkipEmpty r then
        ⟨acc ++ [⟨name, step.type, "completed", .text "No new items found",
          none⟩], none, []⟩
      else
        let acc2 := acc ++ [⟨name, step.type, "completed", summaryOf r, none⟩]
        let out := runSteps oracle acc2 (i + 1) r rest
        ⟨out.results, out.err, acc2 :: out.writes⟩

/-- One write to the execution row: the step_results value stored, and the
status/error columns when the write sets them (Create sets status=running;
Complete/Fail set the terminal status). -/
structure ExecWrite where
  stepResults : List StepResult
  statusW : Option String
  errW : Option String
  deriving DecidableEq, Repr

/-- The observable trace of PipelineRunner.Run on one execution record. -/
structure RunTrace where
  writes : List ExecWrite
  finalResults : List StepResult
  status : String
  error : Option String
  deriving DecidableEq, Repr

/-- PipelineRunner.Run: Create the execution at `running`, execute the
pipeline, then Fail or Complete it with the final step_results. -/
def Run (oracle : StepOracle) (steps : List PipelineStep) : RunTrace :=
  let p := runSteps oracle [] 0 none steps
  let createW : ExecWrite := ⟨[], some "running", none⟩
  let progressWs := p.writes.map (fun rs => (⟨rs, none, none⟩ : ExecWrite))
  match p.err with
  | some e =>
    ⟨createW :: progressWs ++ [⟨p.results, some "failed", some e⟩],
      p.results, "failed", some e⟩
  | none =>
    ⟨createW :: progressWs ++ [⟨p.results, some "completed", none⟩],
      p.results, "completed", none⟩

/-- Journal-chain lemma: across one executePipeline call, the step_results
slice at entry, the successive journal writes, and the final slice form a
chain under list-prefix extension. -/
theorem runSteps_writes_chain (oracle : StepOracle) (steps : List PipelineStep) :
    ∀ (acc : List StepResult) (i : Nat) (cur : Option ExecutorResult),
      List.Chain' (· <+: ·)
        (acc :: (runSteps oracle acc i cur steps).writes ++
          [(runSteps oracle acc i cur steps).results]) := by
  induction steps with
  | nil =>
    intro acc i cur
    simp [runSteps, List.prefix_refl]
  | cons step rest ih =>
    intro acc i cur
    cases h : oracle i step cur with
    | skipSignal reason =>
      simp [runSteps, h, List.prefix_append]
    | failure msg =>
      simp [runSteps, h, List.prefix_append, List.prefix_refl]
    | success r =>
      by_cases he : SkipEmpty r
      · simp [runSteps, h, he, List.prefix_append]
      · simp only [runSteps, h, he, Bool.false_eq_true, if_false,
          List.cons_append]
        exact List.chain'_cons.mpr ⟨List.prefix_append _ _, ih _ (i + 1) r⟩

/-- All entries an executePipeline call appends after a non-failed prefix are
correctly shaped on failure: the error string carries the 1-based index and
step type, and only the final entry is failed. -/
theorem runSteps_fail_shape (oracle : StepOracle) (steps : List PipelineStep) :
    ∀ (acc : List StepResult) (i : Nat) (cur : Option ExecutorResult)
      (e : String),
      i = acc.length → (∀ r ∈ acc, r.status ≠ "failed") →
      (runSteps oracle acc i cur steps).err = some e →
      ∃ last msg,
        (runSteps oracle acc i cur steps).results.getLast? = some last ∧
        last.status = "failed" ∧ last.error = some msg ∧
        e = "step " ++ toString (runSteps oracle acc i cur steps).results.length
          ++ " (" ++ last.stepType ++ ") failed: " ++ msg ∧
        ∀ r ∈ (runSteps oracle acc i cur steps).results.dropLast,
          r.status ≠ "failed" := by
  induction steps with
  | nil =>
    intro acc i cur e _ _ herr
    simp [runSteps] at herr
  | cons step rest ih =>
    intro acc i cur e hi hacc herr
    cases h : oracle i step cur with
    | skipSignal reason =>
      rw [runSteps] at herr
      simp [h] at herr
    | failure msg =>
      rw [runSteps] at herr ⊢
      simp only [h] at herr ⊢
      refine ⟨⟨stepDisplayName i step, step.type, "failed", .null, some msg⟩,
        msg, ?_, rfl, rfl, ?_, ?_⟩
      · exact List.getLast?_concat acc
      · cases herr
        subst hi
        simp [List.length_append]
      · rw [List.dropLast_concat]
        exact hacc
    | success r =>
      by_cases he : SkipEmpty r
      · rw [runSteps] at herr
        simp [h, he] at herr
      · rw [runSteps] at herr ⊢
        simp only [h, he, Bool.false_eq_true, if_false] at herr ⊢
        refine ih _ (i + 1) r e ?_ ?_ herr
        · simp [hi, List.length_append]
        · intro x hx
          rcases List.mem_append.mp hx with hx | hx
          · exact hacc x hx
          · rcases List.mem_singleton.mp hx with rfl
            simp

/-- C9: within one run, the successive step_results values written to the
execution row (Create, each UpdateStepResults, then Complete or Fail) form a
chain under prefix extension, and exactly one write sets a terminal status
(completed or failed), that write being the last. -/
theorem c9_journal_monotonic (oracle : StepOracle) (steps : List PipelineStep) :
    List.Chain' (· <+: ·)
      ((Run oracle steps).writes.map ExecWrite.stepResults) ∧
    (Run oracle steps).writes.countP
      (fun w => decide (w.statusW = some "completed" ∨
        w.statusW = some "failed")) = 1 ∧
    ∃ w, (Run oracle steps).writes.getLast? = some w ∧
      (w.statusW = some "completed" ∨ w.statusW = some "failed") := by
  have hchain := runSteps_writes_chain oracle steps [] 0 none
  cases h : (runSteps oracle [] 0 none steps).err with
  | none =>
    refine ⟨?_, ?_, ?_⟩
    · simp only [Run, h, List.map_cons, List.map_append, List.map_map]
      have hm : (ExecWrite.stepResults ∘ fun rs =>
          (⟨rs, none, none⟩ : ExecWrite)) = fun rs => rs := rfl
      rw [hm]
      simpa using hchain
    · simp [Run, h, List.countP_cons, List.countP_append, List.countP_map,
        Function.comp, List.countP_eq_zero]
    · refine ⟨⟨(runSteps oracle [] 0 none steps).results, some "completed",
        none⟩, ?_, Or.inl rfl⟩
      simp only [Run, h]
      exact List.getLast?_concat _
  | some e =>
    refine ⟨?_, ?_, ?_⟩
    · simp only [Run, h, List.map_cons, List.map_append, List.map_map]
      have hm : (ExecWrite.stepResults ∘ fun rs =>
          (⟨rs, none, none⟩ : ExecWrite)) = fun rs => rs := rfl
      rw [hm]
      simpa using hchain
    · simp [Run, h, List.countP_cons, List.countP_append, List.countP_map,
        Function.comp, List.countP_eq_zero]
    · refine ⟨⟨(runSteps oracle [] 0 none steps).results, some "failed",
        some e⟩, ?_, Or.inr rfl⟩
      simp only [Run, h]
      exact List.getLast?_concat _

/-- C5: a run whose pipeline erred terminates at status failed with error
string exactly "step <i> (<type>) failed: <wrapped>", where i is the number
of attempted steps; the failed entry is the last of step_results and all
earlier entries are non-failed; and conversely a step returning a non-skip
error at any reached point produces exactly that wrapped error string. -/
theorem c5_step_failure_semantics :
    (∀ (oracle : StepOracle) (steps : List PipelineStep) (e : String),
      (Run oracle steps).error = some e →
      (Run oracle steps).status = "failed" ∧
      ∃ last msg,
        (Run oracle steps).finalResults.getLast? = some last ∧
        last.status = "failed" ∧ last.error = some msg ∧
        e = "step " ++ toString (Run oracle steps).finalResults.length
          ++ " (" ++ last.stepType ++ ") failed: " ++ msg ∧
        ∀ r ∈ (Run oracle steps).finalResults.dropLast,
          r.status ≠ "failed") ∧
    (∀ (oracle : StepOracle) (acc : List StepResult) (i : Nat)
        (cur : Option ExecutorResult) (step : PipelineStep)
        (rest : List PipelineStep) (msg : String),
      oracle i step cur = .failure msg →
      (runSteps oracle acc i cur (step :: rest)).err =
        some ("step " ++ toString (i + 1) ++ " (" ++ step.type
          ++ ") failed: " ++ msg)) := by
  constructor
  · intro oracle steps e herr
    have hfin : (Run oracle steps).finalResults =
        (runSteps oracle [] 0 none steps).results := by
      cases h : (runSteps oracle [] 0 none steps).err <;> simp [Run, h]
    cases h : (runSteps oracle [] 0 none steps).err with
    | none => simp [Run, h] at herr
    | some e2 =>
      have he2 : e2 = e := by simpa [Run, h] using herr
      subst he2
      refine ⟨by simp [Run, h], ?_⟩
      rw [hfin]
      exact runSteps_fail_shape oracle steps [] 0 none e2 rfl (by simp) h
  · intro oracle acc i cur step rest msg h
    rw [runSteps]
    simp [h]

/-- A step whose type tag is scraper and whose config is empty; the oracle
fixtures below drive the runner on it. -/
def stepScr : PipelineStep := ⟨"scraper", "", []⟩

/-- A chat-sink step for the tail of concrete pipelines. -/
def stepDisc : PipelineStep := ⟨"discord", "", []⟩

/-- A step oracle in which every dispatch fails with the message boom. -/
def oracleFail : StepOracle := fun _ _ _ => .failure "boom"

/-- A step oracle in which every dispatch succeeds with a nil result. -/
def oracleEmpty : StepOracle := fun _ _ _ => .success none

/-- C5 witness: on a one-step pipeline whose dispatch fails with boom, the run
terminates failed with the exact wrapped error string. -/
theorem c5_witness :
    (Run oracleFail [stepScr]).error = some "step 1 (scraper) failed: boom" ∧
    (Run oracleFail [stepScr]).status = "failed" := by
  refine ⟨by rfl, ?_⟩
  exact (c5_step_failure_semantics.1 oracleFail [stepScr]
    "step 1 (scraper) failed: boom" (by rfl)).1

/-- C4: when a reached step returns a result whose data is the zero-element
of its type (nil result, nil data, empty item sequence, or empty string), the
runner appends one completed entry with the explanatory output and stops: the
outcome is independent of every later step (so the chat-sink is never
dispatched) and the pipeline error is nil; and a run whose pipeline error is
nil terminates at status completed with no error. -/
theorem c4_empty_data_short_circuits :
    (∀ (oracle : StepOracle) (acc : List StepResult) (i : Nat)
        (cur r : Option ExecutorResult) (step : PipelineStep)
        (rest : List PipelineStep),
      oracle i step cur = .success r → SkipEmpty r = true →
      runSteps oracle acc i cur (step :: rest) =
        runSteps oracle acc i cur [step] ∧
      (runSteps oracle acc i cur (step :: rest)).results =
        acc ++ [⟨stepDisplayName i step, step.type, "completed",
          .text "No new items found", none⟩] ∧
      (runSteps oracle acc i cur (step :: rest)).err = none) ∧
    (∀ (oracle : StepOracle) (steps : List PipelineStep),
      (runSteps oracle [] 0 none steps).err = none →
      (Run oracle steps).status = "completed" ∧
      (Run oracle steps).error = none) := by
  constructor
  · intro oracle acc i cur r step rest h he
    refine ⟨?_, ?_, ?_⟩ <;> simp [runSteps, h, he]
  · intro oracle steps h
    simp [Run, h]

/-- C4 witness: a two-step pipeline (ingest then chat-sink) whose first
dispatch returns a nil result short-circuits before the sink, with terminal
status completed. -/
theorem c4_witness :
    oracleEmpty 0 stepScr none = .success none ∧
    SkipEmpty none = true ∧
    runSteps oracleEmpty [] 0 none [stepScr, stepDisc] =
      runSteps oracleEmpty [] 0 none [stepScr] ∧
    (Run oracleEmpty [stepScr, stepDisc]).status = "completed" := by
  refine ⟨rfl, rfl, ?_, ?_⟩
  · exact (c4_empty_data_short_circuits.1 oracleEmpty [] 0 none none stepScr
      [stepDisc] rfl rfl).1
  · exact (c4_empty_data_short_circuits.2 oracleEmpty [stepScr, stepDisc]
      (by rfl)).1

/-- model.TaskStatus. -/
inductive TaskStatus where
  | enabled
  | disabled
  | running
  deriving DecidableEq, Repr

namespace model

/-- model.Task (the fields the scheduler reads). -/
structure Task where
  id : String
  name : String
  schedule : String
  status : TaskStatus
  pipeline : List PipelineStep

end model

/-- scheduler.splitCronParts: split on spaces and tabs, skipping empty
runs. -/
def splitCronParts (schedule : String) : List String :=
  let st := schedule.toList.foldl
    (fun (st : List String × String) r =>
      if r = ' ' ∨ r = '\t' then
        if st.2 ≠ "" then (st.1 ++ [st.2], "") else st
      else (st.1, st.2.push r))
    ([], "")
  if st.2 ≠ "" then st.1 ++ [st.2] else st.1

/-- The shortcut switch at the head of scheduler.scheduleTask. -/
def expandShortcut (schedule : String) : String :=
  match schedule with
  | "@hourly" => "0 0 * * * *"
  | "@daily" => "0 0 0 * * *"
  | "@weekly" => "0 0 0 * * 0"
  | "@monthly" => "0 0 0 1 * *"
  | _ => schedule

/-- The schedule normalization performed inline by scheduler.scheduleTask:
expand shortcuts, then prepend a seconds field when exactly 5 parts
remain. -/
def normalizeSchedule (schedule : String) : String :=
  let s1 := expandShortcut schedule
  if (splitCronParts s1).length = 5 then "0 " ++ s1 else s1

/-- A single-quote character, used in embedded Go error strings. -/
def sqc : String := String.singleton (Char.ofNat 39)

/-- scheduler.scheduleTask, up to the entry-map bookkeeping: the cron parser
(robfig/cron with seconds, third-party) is the oracle `parse`; the entry map
is modelled by its key set.  Returns the error result and the new key set. -/
def scheduleTask (parse : String → Except String Unit)
    (entryMap : List String) (task : model.Task) :
    Except String Unit × List String :=
  if task.status ≠ TaskStatus.enabled then (.ok (), entryMap)
  else
    match parse (normalizeSchedule task.schedule) with
    | .error e =>
      (.error ("invalid cron expression " ++ sqc ++ task.schedule ++ sqc
        ++ ": " ++ e), entryMap)
    | .ok _ =>
      (.ok (), if task.id ∈ entryMap then entryMap else entryMap ++ [task.id])

/-- The TaskRepository.FindByID read, as an oracle. -/
def FindByID : Type := String → Except String (Option model.Task)

/-- scheduler.TriggerTask: read the task and invoke the runner.  There is no
status test between the read and the Run call.  (The triggered_by string only
flows into the execution row's triggered_by column, outside this model.) -/
def TriggerTask (findByID : FindByID) (oracle : StepOracle)
    (taskID : String) : Except String RunTrace :=
  match findByID taskID with
  | .error e => .error e
  | .ok none => .error "task not found"
  | .ok (some task) => .ok (Run oracle task.pipeline)

/-- The timer-tick closure registered by scheduler.scheduleTask: re-read the
task; on a read failure or absence, remove the entry and exit; skip when the
status is running (re-entrancy guard) or otherwise not enabled; else invoke
the runner.  `none` means the runner was not invoked. -/
def scheduledFire (findByID : FindByID) (oracle : StepOracle)
    (taskID : String) : Option RunTrace :=
  match findByID taskID with
  | .error _ => none
  | .ok none => none
  | .ok (some t) =>
    if t.status = TaskStatus.running then none
    else if t.status ≠ TaskStatus.enabled then none
    else some (Run oracle t.pipeline)

/-- A stored task whose status is running. -/
def taskRunning : model.Task := ⟨"t1", "n", "@daily", .running, [stepScr]⟩

/-- A store in which task t1 is present and running. -/
def storeRunning : FindByID :=
  fun tid => if tid = "t1" then .ok (some taskRunning) else .ok none

/-- C3 counterexample: with task t1 stored at status running, TriggerTask
still invokes the runner and a new execution record is created (the run
trace starts with the Create write). -/
theorem c3_counterexample :
    storeRunning "t1" = .ok (some taskRunning) ∧
    taskRunning.status = TaskStatus.running ∧
    TriggerTask storeRunning oracleEmpty "t1" =
      .ok (Run oracleEmpty taskRunning.pipeline) ∧
    (Run oracleEmpty taskRunning.pipeline).writes ≠ [] := by
  refine ⟨rfl, rfl, rfl, ?_⟩
  decide

/-- C3 (amended): a scheduled firing of a task stored at status running is
skipped (no runner invocation), but a manual trigger performs no re-entrancy
check: it invokes the runner regardless, creating a new execution record. -/
theorem c3_trigger_skips_reentrancy_check (findByID : FindByID)
    (oracle : StepOracle) (tid : String) (task : model.Task)
    (hfind : findByID tid = .ok (some task))
    (hrun : task.status = TaskStatus.running) :
    scheduledFire findByID oracle tid = none ∧
    TriggerTask findByID oracle tid = .ok (Run oracle task.pipeline) ∧
    (Run oracle task.pipeline).writes ≠ [] := by
  refine ⟨?_, ?_, ?_⟩
  · simp [scheduledFire, hfind, hrun]
  · simp [TriggerTask, hfind]
  · unfold Run
    cases h : (runSteps oracle [] 0 none task.pipeline).err <;> simp [h]

/-- C3 witness: the amended statement instantiated at the concrete running
store. -/
theorem c3_witness :
    scheduledFire storeRunning oracleEmpty "t1" = none ∧
    TriggerTask storeRunning oracleEmpty "t1" =
      .ok (Run oracleEmpty taskRunning.pipeline) ∧
    (Run oracleEmpty taskRunning.pipeline).writes ≠ [] :=
  c3_trigger_skips_reentrancy_check storeRunning oracleEmpty "t1"
    taskRunning (by rfl) rfl

/-- C8: the four named shortcuts are expanded to their 6-field forms; a
5-field expression (that is not a shortcut) is upgraded by prepending the
seconds field 0; a 6-field expression passes through unchanged; and a cron
parse failure makes scheduling fail with the descriptive error while leaving
the entry map unchanged. -/
theorem c8_schedule_normalization :
    normalizeSchedule "@hourly" = "0 0 * * * *" ∧
    normalizeSchedule "@daily" = "0 0 0 * * *" ∧
    normalizeSchedule "@weekly" = "0 0 0 * * 0" ∧
    normalizeSchedule "@monthly" = "0 0 0 1 * *" ∧
    (∀ s, expandShortcut s = s → (splitCronParts s).length = 5 →
      normalizeSchedule s = "0 " ++ s) ∧
    (∀ s, expandShortcut s = s → (splitCronParts s).length = 6 →
      normalizeSchedule s = s) ∧
    (∀ (parse : String → Except String Unit) (entryMap : List String)
        (task : model.Task) (e : String),
      task.status = TaskStatus.enabled →
      parse (normalizeSchedule task.schedule) = .error e →
      scheduleTask parse entryMap task =
        (.error ("invalid cron expression " ++ sqc ++ task.schedule ++ sqc
          ++ ": " ++ e), entryMap)) := by
  refine ⟨by decide, by decide, by decide, by decide, ?_, ?_, ?_⟩
  · intro s hexp hlen
    simp [normalizeSchedule, hexp, hlen]
  · intro s hexp hlen
    simp [normalizeSchedule, hexp, hlen]
  · intro parse entryMap task e htask hparse
    simp [scheduleTask, htask, hparse]

/-- A cron parser oracle that rejects everything. -/
def parseNone : String → Except String Unit := fun _ => .error "bad"

/-- An enabled task with an unparseable schedule. -/
def taskBadCron : model.Task := ⟨"t2", "n", "x y", .enabled, [stepScr]⟩

/-- C8 witness: the quantified parts of the normalization statement at
concrete inputs: a 5-field and a 6-field expression, and an enabled task
whose schedule the parser rejects. -/
theorem c8_witness :
    expandShortcut "1 2 3 4 5" = "1 2 3 4 5" ∧
    (splitCronParts "1 2 3 4 5").length = 5 ∧
    normalizeSchedule "1 2 3 4 5" = "0 1 2 3 4 5" ∧
    expandShortcut "9 1 2 3 4 5" = "9 1 2 3 4 5" ∧
    (splitCronParts "9 1 2 3 4 5").length = 6 ∧
    normalizeSchedule "9 1 2 3 4 5" = "9 1 2 3 4 5" ∧
    taskBadCron.status = TaskStatus.enabled ∧
    scheduleTask parseNone ["t9"] taskBadCron =
      (.error ("invalid cron expression " ++ sqc ++ "x y" ++ sqc
        ++ ": bad"), ["t9"]) := by
  refine ⟨by decide, by decide,
    (c8_schedule_normalization.2.2.2.2.1 "1 2 3 4 5" (by decide) (by decide)),
    by decide, by decide,
    (c8_schedule_normalization.2.2.2.2.2.1 "9 1 2 3 4 5" (by decide)
      (by decide)),
    rfl, ?_⟩
  exact c8_schedule_normalization.2.2.2.2.2.2 parseNone ["t9"] taskBadCron
    "bad" rfl rfl

namespace scraper

/-- scraper.Executor.Validate: fails unless the config has a source key or a
sources key; the category key is not consulted. -/
def Validate (config : Config) : Option String :=
  match config.get "source" with
  | some _ => none
  | none =>
    match config.get "sources" with
    | some _ => none
    | none =>
      some ("scraper requires " ++ sqc ++ "source" ++ sqc ++ " or "
        ++ sqc ++ "sources" ++ sqc ++ " in config")

end scraper

/-- The Registry.Get lookup of a source adapter, as an oracle (ok when the
source name is registered). -/
def RegistryGet : Type := String → Except String Unit

/-- The per-source Scrape call, as an oracle over (name, query, limit). -/
def ScrapeFn : Type := String → String → Int → Except String (List ScrapedItem)

/-- The Registry.GetByCategory lookup, as an oracle returning the names of
the sources in the category. -/
def GetByCategory : Type := String → List String

namespace scraper

/-- The query/keywords block at the head of scraper.Executor.Execute: the
query string, or the configured keywords joined with spaces when the raw
keywords array is non-empty and the query is empty. -/
def queryFromConfig (config : Config) : String :=
  let query := match config.get "query" with | some (.str s) => s | _ => ""
  let keywordsRaw := match config.get "keywords" with
    | some (.list xs) => xs
    | _ => []
  if keywordsRaw.length > 0 ∧ query = "" then
    String.intercalate " "
      (keywordsRaw.filterMap (fun v => match v with
        | .str s => some s
        | _ => none))
  else query

/-- The source-list block of scraper.Executor.Execute: the source key, then
the sources array, then every source in the configured category. -/
def sourcesFromConfig (getByCategory : GetByCategory) (config : Config) :
    List String :=
  (match config.get "source" with | some (.str s) => [s] | _ => []) ++
    (match config.get "sources" with
      | some (.list xs) => xs.filterMap (fun v => match v with
          | .str s => some s
          | _ => none)
      | _ => []) ++
    (match config.get "category" with
      | some (.str c) => getByCategory c
      | _ => [])

/-- The per-source loop of scraper.Executor.Execute: a registry miss or a
scrape error is recorded as "name: err" and the loop continues; successful
item batches pass through the cache filter when a cache and task id are
present.  Returns the collected items and the collected error strings. -/
def scrapeLoop (registryGet : RegistryGet) (scrape : ScrapeFn)
    (hash : String → String) (db : CacheDB) (hasCache : Bool)
    (taskID query : String) (limit : Int) :
    List String → List ScrapedItem × List String
  | [] => ([], [])
  | name :: rest =>
    match registryGet name with
    | .error e =>
      let t := scrapeLoop registryGet scrape hash db hasCache taskID query
        limit rest
      (t.1, (name ++ ": " ++ e) :: t.2)
    | .ok _ =>
      match scrape name query limit with
      | .error e =>
        let t := scrapeLoop registryGet scrape hash db hasCache taskID query
          limit rest
        (t.1, (name ++ ": " ++ e) :: t.2)
      | .ok items =>
        let items2 := if hasCache ∧ taskID ≠ "" then
            (filterNewItems hash db taskID items).1
          else items
        let t := scrapeLoop registryGet scrape hash db hasCache taskID query
          limit rest
        (items2 ++ t.1, t.2)

/-- scraper.Executor.Execute: resolve the sources, scrape each, aggregate
per-source errors into the metadata, and return the collected items.  Every
return site of the Go function returns a nil error, so the result is always
ok. -/
def Execute (registryGet : RegistryGet) (scrape : ScrapeFn)
    (getByCategory : GetByCategory) (hash : String → String) (db : CacheDB)
    (hasCache : Bool) (config : Config) : Except String ExecutorResult :=
  let query := queryFromConfig config
  let limit : Int := match config.get "limit" with
    | some (.num x) => x
    | _ => 10
  let taskID := match config.get "task_id" with | some (.str s) => s | _ => ""
  let sources := sourcesFromConfig getByCategory config
  let lp := scrapeLoop registryGet scrape hash db hasCache taskID query limit
    sources
  let metadata : Metadata :=
    [("sources", .strList sources), ("query", .str query),
      ("total_items", .nat lp.1.length)] ++
      (if lp.2 ≠ [] then [("errors", .strList lp.2)] else [])
  .ok ⟨.scraped lp.1, metadata, lp.1.length⟩

end scraper

/-- When every registry lookup fails, the scrape loop collects no items and
one formatted error per source name, in order. -/
theorem scrapeLoop_all_registry_fail (rg : RegistryGet) (sc : ScrapeFn)
    (hash : String → String) (db : CacheDB) (hc : Bool)
    (taskID query : String) (limit : Int) (f : String → String)
    (hf : ∀ n, rg n = .error (f n)) :
    ∀ names, scraper.scrapeLoop rg sc hash db hc taskID query limit names =
      ([], names.map (fun n => n ++ ": " ++ f n)) := by
  intro names
  induction names with
  | nil => rfl
  | cons n rest ih => simp [scraper.scrapeLoop, hf n, ih]

/-- C7 (amended): per-source errors are aggregated into the result metadata
and the step NEVER returns an error — even when every configured source
failed, it returns ok with an empty item list (which the runner then treats
as an empty result) and the formatted per-source errors under the metadata
errors key. -/
theorem c7_source_errors_not_fatal :
    (∀ (rg : RegistryGet) (sc : ScrapeFn) (gbc : GetByCategory)
        (hash : String → String) (db : CacheDB) (hc : Bool) (config : Config),
      ∃ r, scraper.Execute rg sc gbc hash db hc config = .ok r) ∧
    (∀ (rg : RegistryGet) (sc : ScrapeFn) (gbc : GetByCategory)
        (hash : String → String) (db : CacheDB) (hc : Bool) (config : Config)
        (f : String → String),
      (∀ n, rg n = .error (f n)) →
      scraper.Execute rg sc gbc hash db hc config =
        .ok ⟨.scraped [],
          [("sources", .strList (scraper.sourcesFromConfig gbc config)),
            ("query", .str (scraper.queryFromConfig config)),
            ("total_items", .nat 0)] ++
            (if (scraper.sourcesFromConfig gbc config).map
                (fun n => n ++ ": " ++ f n) ≠ [] then
              [("errors", MetaVal.strList
                ((scraper.sourcesFromConfig gbc config).map
                  (fun n => n ++ ": " ++ f n)))]
            else []),
          0⟩) := by
  constructor
  · intro rg sc gbc hash db hc config
    exact ⟨_, rfl⟩
  · intro rg sc gbc hash db hc config f hf
    simp only [scraper.Execute, scrapeLoop_all_registry_fail rg sc hash db hc
      _ _ _ f hf, List.length_nil]

/-- A registry in which every source lookup fails with the message down. -/
def rgFail : RegistryGet := fun _ => .error "down"

/-- A registry in which every source lookup succeeds. -/
def rgOK : RegistryGet := fun _ => .ok ()

/-- A scrape oracle returning one fixed item for every source. -/
def scrapeOne : ScrapeFn := fun _ _ _ => .ok [scrapedA]

/-- A category mapping: the jobs category holds the single source
remoteok. -/
def gbcJobs : GetByCategory := fun c => if c = "jobs" then ["remoteok"] else []

/-- A config naming one source, s1. -/
def cfgS1 : Config := [("source", ConfigVal.str "s1")]

/-- C7 counterexample: with a single configured source whose lookup fails
(every configured source failed), Execute still returns ok — no error — with
the failure recorded in metadata, refuting the only-if direction of the
claim. -/
theorem c7_counterexample :
    rgFail "s1" = .error "down" ∧
    scraper.Execute rgFail scrapeOne gbcJobs (fun s => s) dbMiss true cfgS1 =
      .ok ⟨.scraped [],
        [("sources", .strList ["s1"]), ("query", .str ""),
          ("total_items", .nat 0), ("errors", .strList ["s1: down"])],
        0⟩ := ⟨rfl, rfl⟩

/-- C7 witness: the all-sources-failed statement instantiated at the
concrete failing registry and one-source config. -/
theorem c7_witness :
    scraper.Execute rgFail scrapeOne gbcJobs (fun s => s) dbMiss true cfgS1 =
      .ok ⟨.scraped [],
        [("sources", .strList (scraper.sourcesFromConfig gbcJobs cfgS1)),
          ("query", .str (scraper.queryFromConfig cfgS1)),
          ("total_items", .nat 0)] ++
          (if (scraper.sourcesFromConfig gbcJobs cfgS1).map
              (fun n => n ++ ": " ++ "down") ≠ [] then
            [("errors", MetaVal.strList
              ((scraper.sourcesFromConfig gbcJobs cfgS1).map
                (fun n => n ++ ": " ++ "down")))]
          else []),
        0⟩ :=
  c7_source_errors_not_fatal.2 rgFail scrapeOne gbcJobs (fun s => s) dbMiss
    true cfgS1 (fun _ => "down") (fun _ => rfl)

/-- C6: the scraper config validator rejects a config whose only key is
category — although Execute resolves and scrapes the category's sources for
exactly such a config (shown by the last conjunct scraping one item) and the
repository README documents category as a scraper config key. -/
theorem c6_validate_rejects_category_only :
    scraper.Validate [("category", ConfigVal.str "jobs")] =
      some ("scraper requires " ++ sqc ++ "source" ++ sqc ++ " or "
        ++ sqc ++ "sources" ++ sqc ++ " in config") ∧
    scraper.Validate [("source", ConfigVal.str "remoteok")] = none ∧
    scraper.Validate [("sources", ConfigVal.list [ConfigVal.str "a"])] =
      none ∧
    (scraper.Execute rgOK scrapeOne gbcJobs (fun s => s) dbMiss true
        [("category", ConfigVal.str "jobs"),
          ("task_id", ConfigVal.str "t")]).map
      (fun r => r.itemCount) = .ok 1 :=
  ⟨rfl, rfl, rfl, rfl⟩

namespace rss

/-- rss.Executor.Validate: requires a url or urls key. -/
def Validate (config : Config) : Option String :=
  match config.get "url" with
  | some _ => none
  | none =>
    match config.get "urls" with
    | some _ => none
    | none =>
      some ("rss requires " ++ sqc ++ "url" ++ sqc ++ " or " ++ sqc
        ++ "urls" ++ sqc ++ " in config")

end rss

namespace ai

/-- ai.Executor.Validate: requires a prompt key. -/
def Validate (config : Config) : Option String :=
  match config.get "prompt" with
  | some _ => none
  | none =>
    some ("ai_processor requires " ++ sqc ++ "prompt" ++ sqc ++ " in config")

end ai

namespace discord

/-- discord.Executor.Validate: always nil; the webhook is resolved at run
time. -/
def Validate (_config : Config) : Option String := none

end discord

namespace filter

/-- filter.Executor.Validate: always nil; all config keys are optional. -/
def Validate (_config : Config) : Option String := none

end filter

/-- The per-step type dispatch inside PipelineRunner.ValidatePipeline,
including the unknown-type arm. -/
def validateStep (step : PipelineStep) : Option String :=
  match step.type with
  | "scraper" => scraper.Validate step.config
  | "rss" => rss.Validate step.config
  | "ai_processor" | "ai" => ai.Validate step.config
  | "discord" => discord.Validate step.config
  | "filter" => filter.Validate step.config
  | _ => some ("unknown step type: " ++ step.type)

/-- The indexed loop of PipelineRunner.ValidatePipeline, collecting
step-prefixed errors. -/
def validateLoop (i : Nat) : List PipelineStep → List String
  | [] => []
  | step :: rest =>
    match validateStep step with
    | some e => ("step " ++ toString (i + 1) ++ ": " ++ e)
        :: validateLoop (i + 1) rest
    | none => validateLoop (i + 1) rest

/-- PipelineRunner.ValidatePipeline. -/
def ValidatePipeline (pipeline : List PipelineStep) : List String :=
  validateLoop 0 pipeline

/-- The validate loop enumerated from an arbitrary start index equals the
filterMap characterization. -/
theorem validateLoop_eq_enumFrom :
    ∀ (steps : List PipelineStep) (i : Nat),
      validateLoop i steps = (List.enumFrom i steps).filterMap (fun p =>
        (validateStep p.2).map
          (fun e => "step " ++ toString (p.1 + 1) ++ ": " ++ e)) := by
  intro steps
  induction steps with
  | nil => intro i; rfl
  | cons step rest ih =>
    intro i
    cases h : validateStep step <;>
      simp [validateLoop, h, List.enumFrom, List.filterMap_cons, ih (i + 1)]

/-- C10: validating an empty pipeline yields no errors (the at-least-one-step
task invariant is not enforced here), and in general the error list holds
exactly one entry per step whose type validator failed or whose type is
unknown, prefixed with the 1-based step index.  The embedded validators are
pure functions of the pipeline: validation touches no stored state. -/
theorem c10_validate_pipeline_characterization :
    ValidatePipeline [] = [] ∧
    ∀ (pipeline : List PipelineStep),
      ValidatePipeline pipeline = pipeline.enum.filterMap (fun p =>
        (validateStep p.2).map
          (fun e => "step " ++ toString (p.1 + 1) ++ ": " ++ e)) := by
  refine ⟨rfl, ?_⟩
  intro pipeline
  exact validateLoop_eq_enumFrom pipeline 0
